import Mathlib

/-!
# onnx-mlir: compiler option setters and the MatMul2D numerical test driver

A shallow embedding of

* `src/Compiler/CompilerOptions.cpp`: the setters and getters of the compiler
  option registry (`setCompilerOption`, `getCompilerOption`,
  `setCompilerOptions`);
* `test/numerical/TestMatMul2D.cpp`: the per-configuration driver
  `isOMMatmulTheSameAsNaiveImplFor` and the three campaigns of `main`.

Global mutable state of the C++ code is passed explicitly.
-/

namespace OnnxMlir

/-! ## Compiler options (`src/Compiler/CompilerOptions.cpp`) -/

/-- Optimization levels, the enumerators listed by `clEnumVal` for the
`OptimizationLevel` option.  The enum is declared in `OMCompilerTypes.h`
with `O0 = 0`, so that the enumerator `On` has the integer value `n`. -/
inductive OptLevel where
  | O0 | O1 | O2 | O3
  deriving DecidableEq, Repr

/-- Option kinds: the seven cases of the `switch` in `setCompilerOption`,
and `TargetAccel`, which the test driver names and which no case of the
`switch` handles ("options that were added but are unknown"). -/
inductive OptionKind where
  | TargetTriple | TargetArch | TargetCPU | TargetAccel
  | CompilerOptLevel | OPTFlag | LLCFlag | LLVMFlag
  deriving DecidableEq, Repr

/-- The `llvm::cl::opt` globals written or read by the setters and getters. -/
structure Options where
  mtriple : String
  mcpu : String
  march : String
  Xopt : String
  Xllc : String
  mllvm : String
  OptimizationLevel : OptLevel
  deriving DecidableEq, Repr

/-- C `isspace` in the "C" locale: space, and the controls `\t \n \v \f \r`. -/
def isspace (c : Char) : Bool :=
  c.toNat = 32 || (9 ≤ c.toNat && c.toNat ≤ 13)

/-- C `isdigit`. -/
def isdigit (c : Char) : Bool :=
  48 ≤ c.toNat && c.toNat ≤ 57

/-- Skip leading white space, as `strtol` does first. -/
def skipSpaces : List Char → List Char
  | [] => []
  | c :: cs => if isspace c then skipSpaces cs else c :: cs

/-- Accumulate the longest run of leading decimal digits. -/
def digitsValue (acc : Nat) : List Char → Nat
  | [] => acc
  | c :: cs => if isdigit c then digitsValue (acc * 10 + (c.toNat - 48)) cs else acc

/-- The mathematical value of the leading integer of a string: optional white
space, an optional sign, then decimal digits; `0` when there is no digit. -/
def leadingInteger (cs : List Char) : Int :=
  match skipSpaces cs with
  | '-' :: rest => - (digitsValue 0 rest : Int)
  | '+' :: rest => (digitsValue 0 rest : Int)
  | rest => (digitsValue 0 rest : Int)

def INT_MIN : Int := -2147483648

def INT_MAX : Int := 2147483647

/-- C library `atoi` on the characters of `val.c_str()`.  ISO C defines the
result as the leading integer when it is representable in `int`, and leaves
the behaviour undefined otherwise: `none` stands for undefined behaviour. -/
def atoi (val : String) : Option Int :=
  let v := leadingInteger val.toList
  if INT_MIN ≤ v ∧ v ≤ INT_MAX then some v else none

/-- The cast `(OptLevel)level`; it is applied only to `0 ≤ level ≤ 3`. -/
def OptLevel.ofInt (level : Int) : OptLevel :=
  if level = 0 then .O0 else if level = 1 then .O1 else if level = 2 then .O2 else .O3

def setTargetTriple (triple : String) (s : Options) : Options :=
  { s with mtriple := triple }

def getTargetTripleOption (kDefaultTriple : String) (s : Options) : String :=
  if s.mtriple != "" then "--mtriple=" ++ s.mtriple
  else if kDefaultTriple != "" then "--mtriple=" ++ kDefaultTriple
  else ""

def setTargetArch (arch : String) (s : Options) : Options :=
  { s with march := arch }

def getTargetArchOption (s : Options) : String :=
  if s.march != "" then "--march=" ++ s.march else ""

def setTargetCPU (cpu : String) (s : Options) : Options :=
  { s with mcpu := cpu }

def getTargetCPUOption (s : Options) : String :=
  if s.mcpu != "" then "--mcpu=" ++ s.mcpu else ""

def setOptLevel (level : OptLevel) (s : Options) : Options :=
  { s with OptimizationLevel := level }

def getOptimizationLevelOption (s : Options) : String :=
  match s.OptimizationLevel with
  | .O0 => "-O0"
  | .O1 => "-O1"
  | .O2 => "-O2"
  | .O3 => "-O3"

def setXoptOption (flag : String) (s : Options) : Options :=
  { s with Xopt := flag }

def getXoptOption (s : Options) : String :=
  if s.Xopt != "" then s.Xopt else ""

def setXllcOption (flag : String) (s : Options) : Options :=
  { s with Xllc := flag }

def getXllcOption (s : Options) : String :=
  if s.Xllc != "" then s.Xllc else ""

def setLLVMOption (flag : String) (s : Options) : Options :=
  { s with mllvm := flag }

def getLLVMOption (s : Options) : String :=
  if s.mllvm != "" then s.mllvm else ""

/-- The function `setCompilerOption`: the returned code and the option state
afterwards; `none` when `atoi` has undefined behaviour on `val`. -/
def setCompilerOption (kind : OptionKind) (val : String) (s : Options) :
    Option (Int × Options) :=
  match kind with
  | .TargetTriple => some (0, setTargetTriple val s)
  | .TargetArch => some (0, setTargetArch val s)
  | .TargetCPU => some (0, setTargetCPU val s)
  | .CompilerOptLevel =>
    match atoi val with
    | none => none
    | some level =>
      if level < 0 ∨ level > 3 then some (1, s)
      else some (0, setOptLevel (OptLevel.ofInt level) s)
  | .OPTFlag => some (0, setXoptOption val s)
  | .LLCFlag => some (0, setXllcOption val s)
  | .LLVMFlag => some (0, setLLVMOption val s)
  | .TargetAccel => some (0, s)

/-- The function `getCompilerOption`; `kDefaultTriple` is the build-time
constant of `ExternalUtil.hpp`. -/
def getCompilerOption (kDefaultTriple : String) (kind : OptionKind) (s : Options) : String :=
  match kind with
  | .TargetTriple => getTargetTripleOption kDefaultTriple s
  | .TargetArch => getTargetArchOption s
  | .TargetCPU => getTargetCPUOption s
  | .CompilerOptLevel => getOptimizationLevelOption s
  | .OPTFlag => getXoptOption s
  | .LLCFlag => getXllcOption s
  | .LLVMFlag => getLLVMOption s
  | .TargetAccel => ""

/-- The function `setCompilerOptions`: the loop over the list, returning at
the first non-zero code. -/
def setCompilerOptions : List (OptionKind × String) → Options → Option (Int × Options)
  | [], s => some (0, s)
  | pair :: rest, s =>
    match setCompilerOption pair.1 pair.2 s with
    | none => none
    | some (rc, s1) => if rc ≠ 0 then some (rc, s1) else setCompilerOptions rest s1

/-- The value `atoi(val.c_str())` in a program linked against a given C
library: the ISO C value wherever ISO C defines one, and otherwise (the
leading integer does not fit `int`) the value `lib val` that this library
returns. -/
def atoiWith (lib : String → Int) (val : String) : Int :=
  match atoi val with
  | some v => v
  | none => lib val

/-- The function `setCompilerOption` linked against the C library `lib`: the
returned code and the option state afterwards, for every `val`. -/
def setCompilerOptionWith (lib : String → Int) (kind : OptionKind) (val : String)
    (s : Options) : Int × Options :=
  match kind with
  | .TargetTriple => (0, setTargetTriple val s)
  | .TargetArch => (0, setTargetArch val s)
  | .TargetCPU => (0, setTargetCPU val s)
  | .CompilerOptLevel =>
    let level := atoiWith lib val
    if level < 0 ∨ level > 3 then (1, s)
    else (0, setOptLevel (OptLevel.ofInt level) s)
  | .OPTFlag => (0, setXoptOption val s)
  | .LLCFlag => (0, setXllcOption val s)
  | .LLVMFlag => (0, setLLVMOption val s)
  | .TargetAccel => (0, s)

/-- The function `setCompilerOptions` linked against the C library `lib`:
the loop over the list, returning at the first non-zero code. -/
def setCompilerOptionsWith (lib : String → Int) :
    List (OptionKind × String) → Options → Int × Options
  | [], s => (0, s)
  | pair :: rest, s =>
    let r := setCompilerOptionWith lib pair.1 pair.2 s
    if r.1 ≠ 0 then (r.1, r.2) else setCompilerOptionsWith lib rest r.2

/-! ## The test driver (`test/numerical/TestMatMul2D.cpp`) -/

/-- The six stages of `MatMul2DLibBuilder` that the driver calls. -/
inductive Stage where
  | build | compileAndLoad | checkInstructionFromEnv | prepareInputs | run | verifyOutputs
  deriving DecidableEq, Repr

/-- Everything outside the driver: whether the compiled-artifact file exists
at `getTargetFilename(SHARED_LIB_BASE, EmitLib)`, and the rest of the
environment of the model builder (the builder object, loaded libraries, the
random number generator, ...). -/
structure World (σ : Type) where
  artifact : Bool
  ext : σ

/-- The model builder as an injected capability: its constructor, its six
boolean stages, its destructor, and `setRandomNumberGeneratorSeed`.  Each may
read and change the world in any way. -/
structure Facade (σ : Type) where
  construct : Int → Int → Int → World σ → World σ
  stage : Stage → World σ → Bool × World σ
  destruct : World σ → World σ
  setRandomNumberGeneratorSeed : World σ → World σ

/-- Lines written to standard output by `main` and the driver. -/
inductive Line where
  | targetOptions (flags : String)
  | matrixVectorHeader
  | matrixMatrixHeader
  | exhaustiveHeader
  | attempt (testNum I J K : Int)
  deriving DecidableEq, Repr

/-- State of the process.  `testNum`, `out`, `options` and `world` are the
program's; `calls` (each stage invocation with its result) and `verdicts`
(each driver call with its result) are observation logs. -/
structure State (σ : Type) where
  testNum : Int
  out : List Line
  calls : List (Stage × Bool)
  verdicts : List ((Int × Int × Int) × Bool)
  options : Options
  world : World σ

/-- One member call `matmul.stage()`. -/
def callStage {σ : Type} (f : Facade σ) (st : Stage) (s : State σ) : Bool × State σ :=
  let r := f.stage st s.world
  (r.1, { s with calls := s.calls ++ [(st, r.1)], world := r.2 })

/-- C++ `a && b`: `b` is evaluated only when `a` yields true. -/
def andAlso {σ : Type} (a b : State σ → Bool × State σ) (s : State σ) : Bool × State σ :=
  let r := a s
  if r.1 then b r.2 else (false, r.2)

/-- The function `isOMMatmulTheSameAsNaiveImplFor`. -/
def isOMMatmulTheSameAsNaiveImplFor {σ : Type} (f : Facade σ) (I J K : Int)
    (s : State σ) : Bool × State σ :=
  let s1 := { s with testNum := s.testNum + 1 }
  let s2 := { s1 with out := s1.out ++ [Line.attempt s1.testNum I J K] }
  let s3 := { s2 with world := f.construct I J K s2.world }
  let r := andAlso (andAlso (andAlso (andAlso (andAlso
      (callStage f .build) (callStage f .compileAndLoad))
      (callStage f .checkInstructionFromEnv))
      (callStage f .prepareInputs))
      (callStage f .run))
      (callStage f .verifyOutputs) s3
  (r.1, { r.2 with verdicts := r.2.verdicts ++ [((I, J, K), r.1)],
                   world := f.destruct r.2.world })

/-- Library contract of RapidCheck `rc::gen::inRange(min, max)` (third-party
code, not part of these sources): it generates a value between `min`
inclusive and `max` exclusive, and each such value can be generated. -/
def inRange (min max v : Int) : Prop := min ≤ v ∧ v < max

instance (min max v : Int) : Decidable (inRange min max v) := by
  unfold inRange; infer_instance

/-- One run of RapidCheck `rc::check` for a fixed seed and configuration, as
a finite decision tree: run the property on generated input `x` and go on
according to whether it held (further cases, or shrinking after a failure),
or stop and return a verdict. -/
inductive CheckPlan (α : Type) where
  | done (verdict : Bool) : CheckPlan α
  | test (x : α) (onPass onFail : CheckPlan α) : CheckPlan α

/-- Every input of the plan was produced by the generators. -/
def CheckPlan.All {α : Type} (p : α → Prop) : CheckPlan α → Prop
  | .done _ => True
  | .test x onPass onFail => p x ∧ onPass.All p ∧ onFail.All p

/-- The call `rc::check(description, property)` under a plan. -/
def rcCheck {α σ : Type} (property : α → State σ → Bool × State σ) :
    CheckPlan α → State σ → Bool × State σ
  | .done verdict, s => (verdict, s)
  | .test x onPass onFail, s =>
    let r := property x s
    if r.1 then rcCheck property onPass r.2 else rcCheck property onFail r.2

/-- Body of the Matrix-Vector property: `I` and `K` are the values drawn by
`*rc::gen::inRange(4, 50)` and `*rc::gen::inRange(4, 14)`; `RC_ASSERT` fails
the case when the driver returns false. -/
def matrixVectorProperty {σ : Type} (f : Facade σ) (draw : Int × Int)
    (s : State σ) : Bool × State σ :=
  let I := draw.1
  let K := draw.2
  isOMMatmulTheSameAsNaiveImplFor f I 1 K s

/-- What the two generators of the Matrix-Vector property can draw. -/
def matrixVectorDraw (draw : Int × Int) : Prop :=
  inRange 4 50 draw.1 ∧ inRange 4 14 draw.2

instance (draw : Int × Int) : Decidable (matrixVectorDraw draw) := by
  unfold matrixVectorDraw; infer_instance

/-- Body of the Matrix-Matrix property: `I`, `J`, `K` are drawn by three
`*rc::gen::inRange(1, 50)`. -/
def matrixMatrixProperty {σ : Type} (f : Facade σ) (draw : Int × Int × Int)
    (s : State σ) : Bool × State σ :=
  let I := draw.1
  let J := draw.2.1
  let K := draw.2.2
  isOMMatmulTheSameAsNaiveImplFor f I J K s

/-- What the three generators of the Matrix-Matrix property can draw. -/
def matrixMatrixDraw (draw : Int × Int × Int) : Prop :=
  inRange 1 50 draw.1 ∧ inRange 1 50 draw.2.1 ∧ inRange 1 50 draw.2.2

instance (draw : Int × Int × Int) : Decidable (matrixMatrixDraw draw) := by
  unfold matrixMatrixDraw; infer_instance

/-- How a block of statements ends: it runs to its end, or the process is
terminated by a failed `assert`. -/
inductive Flow where
  | completed | aborted
  deriving DecidableEq, Repr

/-- The loop `for (int i = start; i < bound; i++) body`. -/
def forLoop {σ : Type} (bound : Int) (body : Int → State σ → Flow × State σ)
    (i : Int) (s : State σ) : Flow × State σ :=
  if i < bound then
    match body i s with
    | (.completed, s1) => forLoop bound body (i + 1) s1
    | (.aborted, s1) => (.aborted, s1)
  else (.completed, s)
termination_by (bound - i).toNat
decreasing_by omega

/-- The statement `assert(isOMMatmulTheSameAsNaiveImplFor(I, J, K))`, with
assertions enabled: a false result aborts the process. -/
def assertDriver {σ : Type} (f : Facade σ) (I J K : Int) (s : State σ) : Flow × State σ :=
  let r := isOMMatmulTheSameAsNaiveImplFor f I J K s
  if r.1 then (.completed, r.2) else (.aborted, r.2)

/-- The three nested loops of the exhaustive campaign. -/
def exhaustiveLoops {σ : Type} (f : Facade σ) (s : State σ) : Flow × State σ :=
  forLoop 9 (fun I =>
    forLoop 9 (fun J =>
      forLoop 9 (fun K => assertDriver f I J K) 1) 1) 1 s

/-- How the process ends: `main` returns a code, a failed `assert` aborts
it, or `ParseCommandLineOptions` exits it. -/
inductive Exit where
  | returned (code : Int)
  | aborted
  | exited
  deriving DecidableEq, Repr

/-- What `main` is run with: the model builder, the behaviour of
`llvm::cl::ParseCommandLineOptions` on the option registry for the given
command line (`none` when it exits the process), the build constant
`kDefaultTriple`, and the plans of the two `rc::check` calls. -/
structure Env (σ : Type) where
  facade : Facade σ
  parseCommandLineOptions : Options → Option Options
  kDefaultTriple : String
  matrixVectorPlan : CheckPlan (Int × Int)
  matrixMatrixPlan : CheckPlan (Int × Int × Int)

def print {σ : Type} (l : Line) (s : State σ) : State σ :=
  { s with out := s.out ++ [l] }

/-- Lines 38 and 39 of `main`: the seed of the random number generator, and
optimization level 3 (the returned code is ignored). -/
def seedAndLevel {σ : Type} (env : Env σ) (s : State σ) : State σ :=
  let s1 := { s with world := env.facade.setRandomNumberGeneratorSeed s.world }
  match setCompilerOption .CompilerOptLevel "3" s1.options with
  | some r => { s1 with options := r.2 }
  | none => s1

/-- Lines 38 to 43 of `main`: seed, optimization level, command line, target
options line; `none` when `ParseCommandLineOptions` exits the process. -/
def setup {σ : Type} (env : Env σ) (s : State σ) : Option (State σ) :=
  let s2 := seedAndLevel env s
  match env.parseCommandLineOptions s2.options with
  | none => none
  | some o =>
    let s3 := { s2 with options := o }
    some (print (.targetOptions (getCompilerOption env.kDefaultTriple .TargetAccel s3.options)) s3)

/-- Lines 45 to 52 of `main`. -/
def matrixVectorCampaign {σ : Type} (env : Env σ) (s : State σ) : Bool × State σ :=
  rcCheck (matrixVectorProperty env.facade) env.matrixVectorPlan (print .matrixVectorHeader s)

/-- Lines 56 to 63 of `main`. -/
def matrixMatrixCampaign {σ : Type} (env : Env σ) (s : State σ) : Bool × State σ :=
  rcCheck (matrixMatrixProperty env.facade) env.matrixMatrixPlan (print .matrixMatrixHeader s)

/-- Lines 67 to 71 of `main`. -/
def exhaustiveCampaign {σ : Type} (env : Env σ) (s : State σ) : Flow × State σ :=
  exhaustiveLoops env.facade (print .exhaustiveHeader s)

/-- Lines 45 to 73 of `main`. -/
def campaigns {σ : Type} (env : Env σ) (s : State σ) : Exit × State σ :=
  let mv := matrixVectorCampaign env s
  if !mv.1 then (.returned 1, mv.2)
  else
    let mm := matrixMatrixCampaign env mv.2
    if !mm.1 then (.returned 1, mm.2)
    else
      match exhaustiveCampaign env mm.2 with
      | (.aborted, s1) => (.aborted, s1)
      | (.completed, s1) => (.returned 0, s1)

/-- Destructor of `llvm::FileRemover remover`: removes the file. -/
def removerDestructor {σ : Type} (s : State σ) : State σ :=
  { s with world := { s.world with artifact := false } }

/-- The function `main`.  The destructor of `remover` runs when `main`
returns; it does not run when the process is aborted or exited. -/
def main {σ : Type} (env : Env σ) (s : State σ) : Exit × State σ :=
  match setup env s with
  | none => (.exited, seedAndLevel env s)
  | some s1 =>
    match campaigns env s1 with
    | (.returned code, s2) => (.returned code, removerDestructor s2)
    | (.aborted, s2) => (.aborted, s2)
    | (.exited, s2) => (.exited, s2)

/-- Option registry at process start: the `llvm::cl::init` values. -/
def Options.initial : Options :=
  { mtriple := "", mcpu := "", march := "", Xopt := "", Xllc := "", mllvm := "",
    OptimizationLevel := .O0 }

/-- Process start: `testNum` is 0 and nothing has been written. -/
def State.initial {σ : Type} (w : World σ) : State σ :=
  { testNum := 0, out := [], calls := [], verdicts := [], options := Options.initial, world := w }

/-- State reached by applying one entry through `setCompilerOption`. -/
def applyEntry (lib : String → Int) (e : OptionKind × String) (s : Options) : Options :=
  (setCompilerOptionWith lib e.1 e.2 s).2

/-- State reached by applying the entries of a list in list order. -/
def applyEntries (lib : String → Int) (L : List (OptionKind × String)) (s : Options) :
    Options :=
  L.foldl (fun acc e => applyEntry lib e acc) s

/-- A C library whose `atoi` returns -1 wherever ISO C leaves the result
undefined. -/
def sampleLib : String → Int := fun _ => -1

/-- An option list with a failing entry in the middle and, after it, an
entry whose value does not fit `int`. -/
def sampleList : List (OptionKind × String) :=
  [(.TargetCPU, "z16"), (.CompilerOptLevel, "2"), (.CompilerOptLevel, "7"),
   (.CompilerOptLevel, "99999999999"), (.TargetArch, "arm")]

/-- An option state in which nothing has its default value. -/
def sampleOptions : Options :=
  { mtriple := "s390x-ibm-loz", mcpu := "z14", march := "z14", Xopt := "-a", Xllc := "-b",
    mllvm := "-c", OptimizationLevel := .O3 }

/-- The six stages in the order of the driver's `&&` chain. -/
def allStages : List Stage :=
  [.build, .compileAndLoad, .checkInstructionFromEnv, .prepareInputs, .run, .verifyOutputs]

/-- Run stages one after the other, stopping after the first that returns
false. -/
def runStages {σ : Type} (f : Facade σ) : List Stage → State σ → Bool × State σ
  | [], s => (true, s)
  | st :: rest, s =>
    let r := callStage f st s
    if r.1 then runStages f rest r.2 else (false, r.2)

/-- A log of stage calls is what the model builder answers from world `w`:
each logged result is the result of that stage in the world left by the
calls before it. -/
def StageTrace {σ : Type} (f : Facade σ) : World σ → List (Stage × Bool) → Prop
  | _, [] => True
  | w, c :: rest => (f.stage c.1 w).1 = c.2 ∧ StageTrace f (f.stage c.1 w).2 rest

/-- State in which the first stage of a driver call runs: after `++testNum`,
the `printf` and the constructor of `matmul`. -/
def driverEntry {σ : Type} (f : Facade σ) (I J K : Int) (s : State σ) : State σ :=
  { s with testNum := s.testNum + 1,
           out := s.out ++ [Line.attempt (s.testNum + 1) I J K],
           world := f.construct I J K s.world }

/-- The values `1, 2, ..., 8` in ascending order. -/
def oneToEight : List Int := [1, 2, 3, 4, 5, 6, 7, 8]

/-- All triples (I, J, K) with entries in 1..8, in ascending lexicographic
order: I outermost, J in the middle, K innermost. -/
def lexTriples : List (Int × Int × Int) :=
  oneToEight.flatMap fun I => oneToEight.flatMap fun J => oneToEight.map fun K => (I, J, K)

/-- Strict lexicographic order on triples, first component first. -/
def lexLt (a b : Int × Int × Int) : Prop :=
  a.1 < b.1 ∨ (a.1 = b.1 ∧ (a.2.1 < b.2.1 ∨ (a.2.1 = b.2.1 ∧ a.2.2 < b.2.2)))

instance (a b : Int × Int × Int) : Decidable (lexLt a b) := by
  unfold lexLt; infer_instance

/-- The values `i, i + 1, ...` below `bound`, in ascending order. -/
def interval (i bound : Int) : List Int :=
  (List.range (bound - i).toNat).map fun (n : Nat) => i + Int.ofNat n

/-- Run a body over the elements of a list in order, stopping when the body
aborts. -/
def runList {α σ : Type} (body : α → State σ → Flow × State σ) :
    List α → State σ → Flow × State σ
  | [], s => (.completed, s)
  | x :: xs, s =>
    match body x s with
    | (.completed, s1) => runList body xs s1
    | (.aborted, s1) => (.aborted, s1)

/-- A model builder all of whose stages succeed; `compileAndLoad` writes the
artifact file. -/
def passFacade : Facade Unit :=
  { construct := fun _ _ _ w => w,
    stage := fun st w =>
      (true, if st = .compileAndLoad then { w with artifact := true } else w),
    destruct := fun w => w,
    setRandomNumberGeneratorSeed := fun w => w }

/-- A model builder that remembers the shape it was constructed with and
whose `verifyOutputs` fails for the shape `bad` only; `compileAndLoad` writes
the artifact file. -/
def failFacade (bad : Int × Int × Int) : Facade (Int × Int × Int) :=
  { construct := fun I J K w => { w with ext := (I, J, K) },
    stage := fun st w =>
      (!(decide (st = .verifyOutputs) && decide (w.ext = bad)),
       if st = .compileAndLoad then { w with artifact := true } else w),
    destruct := fun w => w,
    setRandomNumberGeneratorSeed := fun w => w }

/-- An environment in which the command line parses and changes no option,
and each `rc::check` runs one case: (I, K) = (4, 4), then (I, J, K) =
(2, 3, 4), with the verdict of that case. -/
def sampleEnv {σ : Type} (f : Facade σ) : Env σ :=
  { facade := f,
    parseCommandLineOptions := fun o => some o,
    kDefaultTriple := "",
    matrixVectorPlan := .test (4, 4) (.done true) (.done false),
    matrixMatrixPlan := .test (2, 3, 4) (.done true) (.done false) }

/-- Process start with no artifact file, for the shape-remembering model
builder. -/
def sampleStart : State (Int × Int × Int) := State.initial { artifact := false, ext := (0, 0, 0) }

/-- The state `setup` leaves from process start in world `w` under
`sampleEnv`: level O3 set, the target options line written. -/
def afterSetup {σ : Type} (w : World σ) : State σ :=
  { testNum := 0, out := [.targetOptions ""], calls := [], verdicts := [],
    options := { Options.initial with OptimizationLevel := .O3 },
    world := w }

/-- The state `setup` leaves from `sampleStart` under `sampleEnv`. -/
def sampleAfterSetup : State (Int × Int × Int) :=
  afterSetup { artifact := false, ext := (0, 0, 0) }

/-- The verdicts of the exhaustive campaign when verification fails for the
shape (1, 2, 1): eight passes, then the failure. -/
def sampleVerdicts : List ((Int × Int × Int) × Bool) :=
  [((1, 1, 1), true), ((1, 1, 2), true), ((1, 1, 3), true), ((1, 1, 4), true),
   ((1, 1, 5), true), ((1, 1, 6), true), ((1, 1, 7), true), ((1, 1, 8), true),
   ((1, 2, 1), false)]

/-- The Matrix-Vector campaign can submit the triple `t` to the driver: in
some run of the campaign whose inputs were all drawn by the generators, `t`
is among the triples of the driver calls made. -/
def matrixVectorCanSubmit (t : Int × Int × Int) : Prop :=
  ∃ (σ : Type) (env : Env σ) (s : State σ) (V : List ((Int × Int × Int) × Bool)) (b : Bool),
    env.matrixVectorPlan.All matrixVectorDraw ∧
    (matrixVectorCampaign env s).2.verdicts = s.verdicts ++ V ∧ (t, b) ∈ V

/-- The Matrix-Matrix campaign can submit the triple `t` to the driver. -/
def matrixMatrixCanSubmit (t : Int × Int × Int) : Prop :=
  ∃ (σ : Type) (env : Env σ) (s : State σ) (V : List ((Int × Int × Int) × Bool)) (b : Bool),
    env.matrixMatrixPlan.All matrixMatrixDraw ∧
    (matrixMatrixCampaign env s).2.verdicts = s.verdicts ++ V ∧ (t, b) ∈ V

/-- An environment whose `rc::check` calls each run the one given case. -/
def oneCaseEnv (mv : Int × Int) (mm : Int × Int × Int) : Env Unit :=
  { facade := passFacade,
    parseCommandLineOptions := fun o => some o,
    kDefaultTriple := "",
    matrixVectorPlan := .test mv (.done true) (.done false),
    matrixMatrixPlan := .test mm (.done true) (.done false) }

/-! ## Theorems: compiler options -/

theorem setCompilerOption_optLevel (val : String) (s : Options) (level : Int)
    (h : atoi val = some level) :
    setCompilerOption .CompilerOptLevel val s =
      if level < 0 ∨ level > 3 then some (1, s)
      else some (0, setOptLevel (OptLevel.ofInt level) s) := by
  simp [setCompilerOption, h]

theorem setCompilerOption_other (kind : OptionKind) (val : String) (s : Options)
    (h : kind ≠ .CompilerOptLevel) :
    ∃ s1, setCompilerOption kind val s = some (0, s1) := by
  cases kind <;> first | exact absurd rfl h | exact ⟨_, rfl⟩

/-- A failing call leaves the option state as it was. -/
theorem setCompilerOption_fail_state (kind : OptionKind) (val : String) (s s1 : Options)
    (rc : Int) (h : setCompilerOption kind val s = some (rc, s1)) (hrc : rc ≠ 0) :
    s1 = s := by
  cases kind <;> simp [setCompilerOption] at h <;> try (exact absurd h.1.symm hrc)
  cases ha : atoi val with
  | none => simp [ha] at h
  | some level =>
    simp only [ha] at h
    split at h
    · simp at h; exact h.2.symm
    · simp at h; exact absurd h.1.symm hrc

/-- The returned code does not depend on the option state. -/
theorem setCompilerOption_code (kind : OptionKind) (val : String) (s t : Options) :
    (setCompilerOption kind val s).map Prod.fst = (setCompilerOption kind val t).map Prod.fst := by
  cases kind <;> simp [setCompilerOption]
  cases atoi val with
  | none => simp
  | some level => by_cases hl : level < 0 ∨ level > 3 <;> simp [hl]

/-! Reading back a printed integer: `atoi` inverts decimal printing. -/

theorem digitsValue_digitChar (acc d : Nat) (hd : d < 10) (cs : List Char) :
    digitsValue acc (Nat.digitChar d :: cs) = digitsValue (acc * 10 + d) cs := by
  interval_cases d <;> rfl

theorem digitsValue_toDigitsCore (fuel : Nat) : ∀ n : Nat, n < fuel →
    ∃ k : Nat, ∀ (ds : List Char) (acc : Nat),
      digitsValue acc (Nat.toDigitsCore 10 fuel n ds) = digitsValue (acc * 10 ^ k + n) ds := by
  induction fuel with
  | zero => intro n h; omega
  | succ fuel ih =>
    intro n hn
    by_cases h0 : n / 10 = 0
    · refine ⟨1, fun ds acc => ?_⟩
      have hlt : n < 10 := by omega
      simp only [Nat.toDigitsCore, h0, if_true]
      rw [Nat.mod_eq_of_lt hlt, digitsValue_digitChar acc n hlt, pow_one]
    · obtain ⟨k, hk⟩ := ih (n / 10) (by omega)
      refine ⟨k + 1, fun ds acc => ?_⟩
      simp only [Nat.toDigitsCore, h0, if_false]
      rw [hk, digitsValue_digitChar _ _ (Nat.mod_lt n (by decide))]
      congr 1
      have := Nat.div_add_mod n 10
      rw [pow_succ]
      nlinarith [this]

theorem toDigitsCore_head (fuel : Nat) : ∀ (n : Nat) (ds : List Char), n < fuel →
    ∃ d rest, d < 10 ∧ Nat.toDigitsCore 10 fuel n ds = Nat.digitChar d :: rest := by
  induction fuel with
  | zero => intro n ds h; omega
  | succ fuel ih =>
    intro n ds hn
    by_cases h0 : n / 10 = 0
    · exact ⟨n % 10, ds, Nat.mod_lt n (by decide), by simp [Nat.toDigitsCore, h0]⟩
    · obtain ⟨d, rest, hd, h⟩ := ih (n / 10) (Nat.digitChar (n % 10) :: ds) (by omega)
      exact ⟨d, rest, hd, by simp only [Nat.toDigitsCore, h0, if_false]; exact h⟩

theorem digitsValue_toDigits (n : Nat) : digitsValue 0 (Nat.toDigits 10 n) = n := by
  obtain ⟨k, hk⟩ := digitsValue_toDigitsCore (n + 1) n (by omega)
  rw [Nat.toDigits, hk]
  simp [digitsValue]

theorem leadingInteger_toDigits (n : Nat) : leadingInteger (Nat.toDigits 10 n) = (n : Int) := by
  have hv := digitsValue_toDigits n
  obtain ⟨d, rest, hd, h⟩ := toDigitsCore_head (n + 1) n [] (by omega)
  rw [Nat.toDigits] at hv ⊢
  rw [h] at hv ⊢
  interval_cases d <;> simp [leadingInteger, skipSpaces, isspace, Nat.digitChar] <;> exact_mod_cast hv

theorem leadingInteger_neg_toDigits (n : Nat) :
    leadingInteger ('-' :: Nat.toDigits 10 n) = - (n : Int) := by
  simp [leadingInteger, skipSpaces, isspace, digitsValue_toDigits]

theorem toString_nat_toList (n : Nat) : (toString n).toList = Nat.toDigits 10 n := rfl

theorem leadingInteger_toString (z : Int) : leadingInteger (toString z).toList = z := by
  cases z with
  | ofNat n => exact leadingInteger_toDigits n
  | negSucc n =>
    have : (toString (Int.negSucc n)).toList = '-' :: Nat.toDigits 10 (n + 1) := by
      rfl
    rw [this, leadingInteger_neg_toDigits]
    rfl

theorem atoi_toString (z : Int) (h1 : INT_MIN ≤ z) (h2 : z ≤ INT_MAX) :
    atoi (toString z) = some z := by
  unfold atoi
  simp only [leadingInteger_toString]
  rw [if_pos ⟨h1, h2⟩]

/-- C8: for every n in 0..3, `setCompilerOption(CompilerOptLevel, n as a decimal
string)` returns 0 and afterwards `getCompilerOption(CompilerOptLevel)` is
"-O" followed by n, whatever the option state was before. -/
theorem setCompilerOption_optLevel_then_get (n : Nat) (hn : n ≤ 3) (kDefaultTriple : String)
    (s : Options) :
    ∃ s1, setCompilerOption .CompilerOptLevel (toString n) s = some (0, s1) ∧
      getCompilerOption kDefaultTriple .CompilerOptLevel s1 = "-O" ++ toString n := by
  interval_cases n <;> exact ⟨_, rfl, rfl⟩

theorem setCompilerOption_optLevel_then_get_witness :
    (3 : Nat) ≤ 3 ∧ ∃ s1, setCompilerOption .CompilerOptLevel (toString 3) sampleOptions
        = some (0, s1) ∧
      getCompilerOption "" .CompilerOptLevel s1 = "-O" ++ toString 3 :=
  ⟨by decide, setCompilerOption_optLevel_then_get 3 (by decide) "" sampleOptions⟩

/-- C9, as stated, fails: the string "abc" is not a number, yet
`setCompilerOption(CompilerOptLevel, "abc")` returns 0 and changes the
optimization level (from O3 to O0). -/
theorem setCompilerOption_optLevel_nonnumeric_accepted :
    "abc".toList.all (fun c => !isdigit c) = true ∧
    setCompilerOption .CompilerOptLevel "abc" sampleOptions
      = some (0, { sampleOptions with OptimizationLevel := .O0 }) ∧
    ({ sampleOptions with OptimizationLevel := .O0 } : Options) ≠ sampleOptions := by
  refine ⟨by decide, rfl, by decide⟩

/-- C9 (amended): `setCompilerOption(CompilerOptLevel, val)` decides on the
integer that `atoi` reads from val.  When that integer is below 0 or above 3
it returns the non-zero code 1 and leaves the optimization level and every
other option unchanged; when it is in 0..3 (as for a string with no leading
number, read as 0) it returns 0 and sets that level.  In particular the
decimal string of every `int` below 0 or above 3 is rejected with code 1 and
nothing changed. -/
theorem setCompilerOption_optLevel_range :
    (∀ (val : String) (s : Options) (level : Int), atoi val = some level →
      ((level < 0 ∨ 3 < level) → setCompilerOption .CompilerOptLevel val s = some (1, s)) ∧
      ((0 ≤ level ∧ level ≤ 3) → setCompilerOption .CompilerOptLevel val s
          = some (0, { s with OptimizationLevel := OptLevel.ofInt level }))) ∧
    (∀ (z : Int) (s : Options), INT_MIN ≤ z → z ≤ INT_MAX → (z < 0 ∨ 3 < z) →
      setCompilerOption .CompilerOptLevel (toString z) s = some (1, s)) := by
  have key : ∀ (val : String) (s : Options) (level : Int), atoi val = some level →
      ((level < 0 ∨ 3 < level) → setCompilerOption .CompilerOptLevel val s = some (1, s)) ∧
      ((0 ≤ level ∧ level ≤ 3) → setCompilerOption .CompilerOptLevel val s
          = some (0, { s with OptimizationLevel := OptLevel.ofInt level })) := by
    intro val s level h
    rw [setCompilerOption_optLevel val s level h]
    constructor
    · intro hl
      rw [if_pos (by omega)]
    · intro hl
      rw [if_neg (by omega)]
      rfl
  exact ⟨key, fun z s h1 h2 hz => (key (toString z) s z (atoi_toString z h1 h2)).1 hz⟩

theorem setCompilerOption_optLevel_range_witness :
    atoi "4" = some 4 ∧
    setCompilerOption .CompilerOptLevel "4" sampleOptions = some (1, sampleOptions) ∧
    atoi "-1" = some (-1) ∧
    setCompilerOption .CompilerOptLevel "-1" sampleOptions = some (1, sampleOptions) ∧
    atoi "2x" = some 2 ∧
    setCompilerOption .CompilerOptLevel "2x" sampleOptions
      = some (0, { sampleOptions with OptimizationLevel := .O2 }) ∧
    setCompilerOption .CompilerOptLevel (toString (2147483647 : Int)) sampleOptions
      = some (1, sampleOptions) :=
  ⟨by decide,
   (setCompilerOption_optLevel_range.1 "4" sampleOptions 4 (by decide)).1 (Or.inr (by decide)),
   by decide,
   (setCompilerOption_optLevel_range.1 "-1" sampleOptions (-1) (by decide)).1
     (Or.inl (by decide)),
   by decide,
   (setCompilerOption_optLevel_range.1 "2x" sampleOptions 2 (by decide)).2
     ⟨by decide, by decide⟩,
   setCompilerOption_optLevel_range.2 2147483647 sampleOptions (by decide) (by decide)
     (Or.inr (by decide))⟩

/-- Wherever the ISO C embedding of `setCompilerOption` has a result, the
function linked against any C library has that result. -/
theorem setCompilerOptionWith_of_some (lib : String → Int) (kind : OptionKind) (val : String)
    (s : Options) (r : Int × Options) (h : setCompilerOption kind val s = some r) :
    setCompilerOptionWith lib kind val s = r := by
  cases kind <;> simp [setCompilerOption] at h <;>
    try (simp [setCompilerOptionWith, h])
  cases ha : atoi val with
  | none => simp [ha] at h
  | some level =>
    simp only [ha] at h
    simp only [setCompilerOptionWith, atoiWith, ha]
    split at h <;> rename_i hl
    · rw [if_pos hl]; exact Option.some.inj h
    · rw [if_neg hl]; exact Option.some.inj h

/-- Wherever the ISO C embedding of `setCompilerOptions` has a result, the
function linked against any C library has that result. -/
theorem setCompilerOptionsWith_of_some (lib : String → Int) (L : List (OptionKind × String))
    (s : Options) (r : Int × Options) (h : setCompilerOptions L s = some r) :
    setCompilerOptionsWith lib L s = r := by
  induction L generalizing s with
  | nil => simpa [setCompilerOptions, setCompilerOptionsWith] using h
  | cons e L ih =>
    cases he : setCompilerOption e.1 e.2 s with
    | none => simp [setCompilerOptions, he] at h
    | some r1 =>
      have hw := setCompilerOptionWith_of_some lib e.1 e.2 s r1 he
      simp only [setCompilerOptions, he] at h
      simp only [setCompilerOptionsWith, hw]
      by_cases hrc : r1.1 ≠ 0
      · rw [if_pos hrc] at h ⊢
        exact Option.some.inj h
      · rw [if_neg hrc] at h ⊢
        exact ih r1.2 h

/-- A call either returns 0, in every state, or returns one non-zero code in
every state and changes nothing. -/
theorem setCompilerOptionWith_cases (lib : String → Int) (kind : OptionKind) (val : String) :
    (∀ t, (setCompilerOptionWith lib kind val t).1 = 0) ∨
    (∃ rc : Int, rc ≠ 0 ∧ ∀ t, setCompilerOptionWith lib kind val t = (rc, t)) := by
  cases kind
  case CompilerOptLevel =>
    by_cases hl : atoiWith lib val < 0 ∨ atoiWith lib val > 3
    · right
      exact ⟨1, by decide, fun t => by simp [setCompilerOptionWith, hl]⟩
    · left
      intro t
      simp [setCompilerOptionWith, hl]
  all_goals exact Or.inl fun t => rfl

theorem applyEntries_cons (lib : String → Int) (e : OptionKind × String)
    (L : List (OptionKind × String)) (s : Options) :
    applyEntries lib (e :: L) s = applyEntries lib L (applyEntry lib e s) := rfl

/-- C10: for every option list L, `setCompilerOptions(L)` applies the entries
in list order and stops at the first entry for which `setCompilerOption`
returns non-zero: it returns that entry's code, and the option state is the
one reached by applying only the entries before it (the failing entry changes
nothing and later entries are not looked at); when no entry fails it returns
0 and the state is the one reached by applying every entry of L in order.
This holds whatever the C library returns from `atoi` on values that do not
fit `int`. -/
theorem setCompilerOptions_stops_at_first_failure (lib : String → Int)
    (L : List (OptionKind × String)) (s : Options) :
    (∃ pre e post, ∃ rc : Int, L = pre ++ e :: post ∧
        (∀ p ∈ pre, ∀ t, (setCompilerOptionWith lib p.1 p.2 t).1 = 0) ∧
        rc ≠ 0 ∧ (∀ t, setCompilerOptionWith lib e.1 e.2 t = (rc, t)) ∧
        setCompilerOptionsWith lib L s = (rc, applyEntries lib pre s)) ∨
    ((∀ p ∈ L, ∀ t, (setCompilerOptionWith lib p.1 p.2 t).1 = 0) ∧
        setCompilerOptionsWith lib L s = (0, applyEntries lib L s)) := by
  induction L generalizing s with
  | nil => right; exact ⟨by simp, rfl⟩
  | cons e L ih =>
    rcases setCompilerOptionWith_cases lib e.1 e.2 with h0 | ⟨rc, hrc, hf⟩
    · have hstep : setCompilerOptionsWith lib (e :: L) s
          = setCompilerOptionsWith lib L (applyEntry lib e s) := by
        simp [setCompilerOptionsWith, h0 s, applyEntry]
      rcases ih (applyEntry lib e s) with ⟨pre, e1, post, rc, hsplit, hpre, hrc, hf, hres⟩ | ⟨hall, hres⟩
      · left
        refine ⟨e :: pre, e1, post, rc, by simp [hsplit], ?_, hrc, hf, ?_⟩
        · intro p hp
          rcases List.mem_cons.1 hp with rfl | hp
          · exact h0
          · exact hpre p hp
        · rw [hstep, hres, applyEntries_cons]
      · right
        refine ⟨?_, ?_⟩
        · intro p hp
          rcases List.mem_cons.1 hp with rfl | hp
          · exact h0
          · exact hall p hp
        · rw [hstep, hres, applyEntries_cons]
    · left
      refine ⟨[], e, L, rc, rfl, by simp, hrc, hf, ?_⟩
      simp [setCompilerOptionsWith, hf s, hrc, applyEntries]

theorem setCompilerOptions_stops_at_first_failure_witness :
    setCompilerOptionsWith sampleLib sampleList sampleOptions
      = (1, { sampleOptions with mcpu := "z16", OptimizationLevel := .O2 }) ∧
    setCompilerOptionsWith sampleLib [(.CompilerOptLevel, "99999999999")] sampleOptions
      = (1, sampleOptions) ∧
    setCompilerOptionsWith sampleLib [(.TargetCPU, "z16"), (.CompilerOptLevel, "abc")]
        sampleOptions
      = (0, { sampleOptions with mcpu := "z16", OptimizationLevel := .O0 }) ∧
    ((∃ pre e post, ∃ rc : Int, sampleList = pre ++ e :: post ∧
        (∀ p ∈ pre, ∀ t, (setCompilerOptionWith sampleLib p.1 p.2 t).1 = 0) ∧
        rc ≠ 0 ∧ (∀ t, setCompilerOptionWith sampleLib e.1 e.2 t = (rc, t)) ∧
        setCompilerOptionsWith sampleLib sampleList sampleOptions
          = (rc, applyEntries sampleLib pre sampleOptions)) ∨
      ((∀ p ∈ sampleList, ∀ t, (setCompilerOptionWith sampleLib p.1 p.2 t).1 = 0) ∧
        setCompilerOptionsWith sampleLib sampleList sampleOptions
          = (0, applyEntries sampleLib sampleList sampleOptions))) :=
  ⟨rfl, rfl, rfl,
   setCompilerOptions_stops_at_first_failure sampleLib sampleList sampleOptions⟩

/-! ## Theorems: the driver -/

theorem andAlso_assoc {σ : Type} (a b c : State σ → Bool × State σ) :
    andAlso (andAlso a b) c = andAlso a (andAlso b c) := by
  funext s
  simp only [andAlso]
  by_cases ha : (a s).1 = true
  · simp [ha]
  · simp [ha]

theorem runStages_cons {σ : Type} (f : Facade σ) (st : Stage) (rest : List Stage) :
    runStages f (st :: rest) = andAlso (callStage f st) (runStages f rest) := by
  funext s
  simp [runStages, andAlso]

theorem runStages_single {σ : Type} (f : Facade σ) (st : Stage) :
    runStages f [st] = callStage f st := by
  funext s
  simp only [runStages]
  cases h : (callStage f st s).1
  · simp [Prod.ext_iff, h]
  · simp [Prod.ext_iff, h]

/-- The left-nested `&&` chain of the driver is the stage list run in order. -/
theorem chain_eq_runStages {σ : Type} (f : Facade σ) :
    andAlso (andAlso (andAlso (andAlso (andAlso
      (callStage f .build) (callStage f .compileAndLoad))
      (callStage f .checkInstructionFromEnv))
      (callStage f .prepareInputs))
      (callStage f .run))
      (callStage f .verifyOutputs) = runStages f allStages := by
  simp only [allStages, runStages_cons, andAlso_assoc]
  rw [← runStages_cons f .verifyOutputs [], runStages_single]

theorem runStages_frame {σ : Type} (f : Facade σ) (L : List Stage) (s : State σ) :
    (runStages f L s).2.testNum = s.testNum ∧ (runStages f L s).2.out = s.out ∧
    (runStages f L s).2.verdicts = s.verdicts ∧ (runStages f L s).2.options = s.options := by
  induction L generalizing s with
  | nil => simp [runStages]
  | cons st rest ih =>
    simp only [runStages]
    split
    · have := ih (callStage f st s).2
      simpa [callStage] using this
    · simp [callStage]

/-- What a run of a stage list logs: the stages in order, all true when the
result is true, and otherwise all true up to one false, which is the last. -/
theorem runStages_calls {σ : Type} (f : Facade σ) (L : List Stage) (s : State σ) :
    ∃ tr, (runStages f L s).2.calls = s.calls ++ tr ∧ StageTrace f s.world tr ∧
      (((runStages f L s).1 = true ∧ tr = L.map (fun st => (st, true))) ∨
       ((runStages f L s).1 = false ∧ ∃ n st, L[n]? = some st ∧
          tr = (L.take n).map (fun st => (st, true)) ++ [(st, false)])) := by
  induction L generalizing s with
  | nil => exact ⟨[], by simp [runStages], trivial, Or.inl ⟨rfl, rfl⟩⟩
  | cons st rest ih =>
    cases hb : (f.stage st s.world).1 with
    | false =>
      refine ⟨[(st, false)], ?_, ?_, Or.inr ⟨?_, 0, st, by simp, rfl⟩⟩
      · simp [runStages, callStage, hb]
      · exact ⟨hb, trivial⟩
      · simp [runStages, callStage, hb]
    | true =>
      have hrun : runStages f (st :: rest) s = runStages f rest (callStage f st s).2 := by
        simp [runStages, callStage, hb]
      obtain ⟨tr, hcalls, htrace, hres⟩ := ih (callStage f st s).2
      refine ⟨(st, true) :: tr, ?_, ?_, ?_⟩
      · rw [hrun, hcalls]; simp [callStage, hb]
      · exact ⟨hb, by simpa [callStage] using htrace⟩
      · rw [hrun]
        rcases hres with ⟨h1, h2⟩ | ⟨h1, n, st1, h2, h3⟩
        · exact Or.inl ⟨h1, by simp [h2]⟩
        · exact Or.inr ⟨h1, n + 1, st1, by simpa using h2, by simp [h3]⟩

theorem driver_eq {σ : Type} (f : Facade σ) (I J K : Int) (s : State σ) :
    isOMMatmulTheSameAsNaiveImplFor f I J K s =
      ((runStages f allStages (driverEntry f I J K s)).1,
       { (runStages f allStages (driverEntry f I J K s)).2 with
         verdicts := (runStages f allStages (driverEntry f I J K s)).2.verdicts
              ++ [((I, J, K), (runStages f allStages (driverEntry f I J K s)).1)],
         world := f.destruct (runStages f allStages (driverEntry f I J K s)).2.world }) := by
  simp only [isOMMatmulTheSameAsNaiveImplFor, chain_eq_runStages, driverEntry]

/-- Effect of one driver call on the program's own state and on the verdict
log. -/
theorem driver_frame {σ : Type} (f : Facade σ) (I J K : Int) (s : State σ) :
    (isOMMatmulTheSameAsNaiveImplFor f I J K s).2.testNum = s.testNum + 1 ∧
    (isOMMatmulTheSameAsNaiveImplFor f I J K s).2.out
      = s.out ++ [Line.attempt (s.testNum + 1) I J K] ∧
    (isOMMatmulTheSameAsNaiveImplFor f I J K s).2.verdicts
      = s.verdicts ++ [((I, J, K), (isOMMatmulTheSameAsNaiveImplFor f I J K s).1)] ∧
    (isOMMatmulTheSameAsNaiveImplFor f I J K s).2.options = s.options := by
  rw [driver_eq]
  obtain ⟨h1, h2, h3, h4⟩ := runStages_frame f allStages (driverEntry f I J K s)
  exact ⟨h1, h2, by simp only [h3]; rfl, h4⟩

/-- C1: the driver returns true exactly when build, compileAndLoad,
checkInstructionFromEnv, prepareInputs, run and verifyOutputs all return
true; the stages are invoked in that order, and none is invoked after the
first that returns false.  The log `tr` of the call holds the stages invoked
with the results the model builder gave: all six with true when the driver
returns true, and otherwise the first n of them with true followed by stage
n with false, for some n below 6. -/
theorem driver_short_circuits {σ : Type} (f : Facade σ) (I J K : Int) (s : State σ) :
    ∃ tr, (isOMMatmulTheSameAsNaiveImplFor f I J K s).2.calls = s.calls ++ tr ∧
      StageTrace f (f.construct I J K s.world) tr ∧
      ((isOMMatmulTheSameAsNaiveImplFor f I J K s).1 = true ↔
        tr = [(.build, true), (.compileAndLoad, true), (.checkInstructionFromEnv, true),
              (.prepareInputs, true), (.run, true), (.verifyOutputs, true)]) ∧
      ((isOMMatmulTheSameAsNaiveImplFor f I J K s).1 = false ↔
        ∃ n st, allStages[n]? = some st ∧
          tr = (allStages.take n).map (fun st => (st, true)) ++ [(st, false)]) := by
  rw [driver_eq]
  obtain ⟨tr, hcalls, htrace, hres⟩ := runStages_calls f allStages (driverEntry f I J K s)
  refine ⟨tr, by simpa [driverEntry] using hcalls, by simpa [driverEntry] using htrace, ?_, ?_⟩
  · rcases hres with ⟨h1, h2⟩ | ⟨h1, n, st, h2, h3⟩
    · simp only [h1, true_iff]
      rw [h2]; rfl
    · simp only [h1]
      constructor
      · intro h; cases h
      · intro h
        have hmem : (st, false) ∈ tr := by rw [h3]; simp
        rw [h] at hmem
        simp at hmem
  · rcases hres with ⟨h1, h2⟩ | ⟨h1, n, st, h2, h3⟩
    · simp only [h1]
      constructor
      · intro h; cases h
      · rintro ⟨n, st, _, h3⟩
        have hmem : (st, false) ∈ tr := by rw [h3]; simp
        rw [h2] at hmem
        simp at hmem
    · simp only [h1, true_iff]
      exact ⟨n, st, h2, h3⟩

/-! ## Theorems: the exhaustive campaign -/

theorem interval_self_lt (i bound : Int) (h : i < bound) :
    interval i bound = i :: interval (i + 1) bound := by
  unfold interval
  have hn : (bound - i).toNat = (bound - (i + 1)).toNat + 1 := by omega
  rw [hn, List.range_succ_eq_map]
  simp only [List.map_cons, List.map_map]
  congr 1
  · simp
  · apply List.map_congr_left
    intro n _
    simp only [Function.comp, Int.ofNat_eq_coe]
    push_cast
    ring

theorem interval_of_le (i bound : Int) (h : bound ≤ i) : interval i bound = [] := by
  unfold interval
  have hn : (bound - i).toNat = 0 := by omega
  rw [hn]; rfl

/-- The `for` loop runs its body over the interval from the start value. -/
theorem forLoop_eq_runList {σ : Type} (bound : Int) (body : Int → State σ → Flow × State σ)
    (n : Nat) : ∀ (i : Int) (s : State σ), (bound - i).toNat = n →
      forLoop bound body i s = runList body (interval i bound) s := by
  induction n with
  | zero =>
    intro i s h
    have hle : bound ≤ i := by omega
    rw [forLoop, if_neg (by omega), interval_of_le i bound hle]
    rfl
  | succ n ih =>
    intro i s h
    have hlt : i < bound := by omega
    rw [forLoop, if_pos hlt, interval_self_lt i bound hlt]
    simp only [runList]
    cases hb : body i s with
    | mk fl s1 =>
      cases fl with
      | completed => simp only []; exact ih (i + 1) s1 (by omega)
      | aborted => rfl

theorem interval_one_nine : interval 1 9 = oneToEight := by decide

theorem runList_append {α σ : Type} (body : α → State σ → Flow × State σ) (A B : List α)
    (s : State σ) :
    runList body (A ++ B) s =
      match runList body A s with
      | (.completed, s1) => runList body B s1
      | (.aborted, s1) => (.aborted, s1) := by
  induction A generalizing s with
  | nil => rfl
  | cons x xs ih =>
    simp only [List.cons_append, runList]
    cases hb : body x s with
    | mk fl s1 =>
      cases fl with
      | completed => simp only []; exact ih s1
      | aborted => rfl

theorem runList_flatMap {α β σ : Type} (body : β → State σ → Flow × State σ) (g : α → List β)
    (L : List α) (s : State σ) :
    runList (fun x => runList body (g x)) L s = runList body (L.flatMap g) s := by
  induction L generalizing s with
  | nil => rfl
  | cons x xs ih =>
    simp only [List.flatMap_cons, runList, runList_append]
    cases hb : runList body (g x) s with
    | mk fl s1 =>
      cases fl with
      | completed => simp only []; exact ih s1
      | aborted => rfl

theorem runList_map {α β σ : Type} (body : β → State σ → Flow × State σ) (g : α → β)
    (L : List α) (s : State σ) :
    runList (fun x => body (g x)) L s = runList body (L.map g) s := by
  induction L generalizing s with
  | nil => rfl
  | cons x xs ih =>
    simp only [List.map_cons, runList]
    cases hb : body (g x) s with
    | mk fl s1 =>
      cases fl with
      | completed => simp only []; exact ih s1
      | aborted => rfl

/-- The three nested loops run the asserted driver call over the triples in
ascending lexicographic order. -/
theorem exhaustiveLoops_eq_runList {σ : Type} (f : Facade σ) (s : State σ) :
    exhaustiveLoops f s
      = runList (fun t : Int × Int × Int => assertDriver f t.1 t.2.1 t.2.2) lexTriples s := by
  have h3 : ∀ I J : Int, (fun s => forLoop 9 (fun K => assertDriver f I J K) 1 s)
      = fun s => runList (fun t : Int × Int × Int => assertDriver f t.1 t.2.1 t.2.2)
          (oneToEight.map fun K => (I, J, K)) s := by
    intro I J
    funext s
    rw [forLoop_eq_runList 9 _ 8 1 s (by decide), interval_one_nine, ← runList_map]
  have h2 : ∀ I : Int, (fun s => forLoop 9 (fun J => forLoop 9
        (fun K => assertDriver f I J K) 1) 1 s)
      = fun s => runList (fun t : Int × Int × Int => assertDriver f t.1 t.2.1 t.2.2)
          (oneToEight.flatMap fun J => oneToEight.map fun K => (I, J, K)) s := by
    intro I
    funext s
    rw [forLoop_eq_runList 9 _ 8 1 s (by decide), interval_one_nine, ← runList_flatMap]
    congr 1
    funext J
    exact h3 I J
  unfold exhaustiveLoops lexTriples
  rw [forLoop_eq_runList 9 _ 8 1 s (by decide), interval_one_nine, ← runList_flatMap]
  congr 1
  funext I
  exact h2 I

theorem oneToEight_pairwise : oneToEight.Pairwise (fun a b => a < b) := by decide

theorem mem_oneToEight (i : Int) : i ∈ oneToEight ↔ 1 ≤ i ∧ i ≤ 8 := by
  simp only [oneToEight, List.mem_cons, List.mem_singleton, List.not_mem_nil, or_false]
  omega

theorem mem_lexTriples (I J K : Int) :
    (I, J, K) ∈ lexTriples ↔ (1 ≤ I ∧ I ≤ 8) ∧ (1 ≤ J ∧ J ≤ 8) ∧ (1 ≤ K ∧ K ≤ 8) := by
  simp only [lexTriples, List.mem_flatMap, List.mem_map, Prod.mk.injEq, ← mem_oneToEight]
  constructor
  · rintro ⟨a, ha, b, hb, c, hc, rfl, rfl, rfl⟩
    exact ⟨ha, hb, hc⟩
  · rintro ⟨ha, hb, hc⟩
    exact ⟨I, ha, J, hb, K, hc, rfl, rfl, rfl⟩

theorem lexTriples_pairwise : lexTriples.Pairwise lexLt := by
  unfold lexTriples
  rw [List.pairwise_flatMap]
  refine ⟨fun I _ => ?_, ?_⟩
  · rw [List.pairwise_flatMap]
    refine ⟨fun J _ => ?_, ?_⟩
    · rw [List.pairwise_map]
      exact oneToEight_pairwise.imp fun {a b} h => Or.inr ⟨rfl, Or.inr ⟨rfl, h⟩⟩
    · refine oneToEight_pairwise.imp fun {a b} h x hx y hy => ?_
      obtain ⟨_, _, rfl⟩ := List.mem_map.1 hx
      obtain ⟨_, _, rfl⟩ := List.mem_map.1 hy
      exact Or.inr ⟨rfl, Or.inl h⟩
  · refine oneToEight_pairwise.imp fun {a b} h x hx y hy => ?_
    obtain ⟨_, _, hx⟩ := List.mem_flatMap.1 hx
    obtain ⟨_, _, rfl⟩ := List.mem_map.1 hx
    obtain ⟨_, _, hy⟩ := List.mem_flatMap.1 hy
    obtain ⟨_, _, rfl⟩ := List.mem_map.1 hy
    exact Or.inl h

theorem lexLt_irrefl (a : Int × Int × Int) : ¬ lexLt a a := by
  unfold lexLt; omega

theorem lexTriples_nodup : lexTriples.Nodup :=
  lexTriples_pairwise.imp fun {a b} h => by
    intro hab
    subst hab
    exact lexLt_irrefl a h

set_option maxRecDepth 100000 in
theorem lexTriples_length : lexTriples.length = 512 := by decide

theorem lexTriples_head : lexTriples.head? = some (1, 1, 1) := by decide

set_option maxRecDepth 100000 in
theorem lexTriples_getLast : lexTriples.getLast? = some (8, 8, 8) := by decide

/-- Verdicts logged by a sweep over a list of triples: all true when the
sweep completes; when it aborts, true for the triples before the failing one,
then false for it, and nothing after. -/
theorem sweep_verdicts {σ : Type} (f : Facade σ) (L : List (Int × Int × Int)) (s : State σ) :
    ((runList (fun t : Int × Int × Int => assertDriver f t.1 t.2.1 t.2.2) L s).1 = .completed ∧
      (runList (fun t : Int × Int × Int => assertDriver f t.1 t.2.1 t.2.2) L s).2.verdicts
        = s.verdicts ++ L.map (fun t => (t, true))) ∨
    ((runList (fun t : Int × Int × Int => assertDriver f t.1 t.2.1 t.2.2) L s).1 = .aborted ∧
      ∃ pre t post, L = pre ++ t :: post ∧
        (runList (fun t : Int × Int × Int => assertDriver f t.1 t.2.1 t.2.2) L s).2.verdicts
          = s.verdicts ++ (pre.map (fun t => (t, true)) ++ [(t, false)])) := by
  induction L generalizing s with
  | nil => left; exact ⟨rfl, by simp [runList]⟩
  | cons t L ih =>
    obtain ⟨-, -, hv, -⟩ := driver_frame f t.1 t.2.1 t.2.2 s
    cases hr : (isOMMatmulTheSameAsNaiveImplFor f t.1 t.2.1 t.2.2 s).1 with
    | false =>
      right
      have hrun : runList (fun t : Int × Int × Int => assertDriver f t.1 t.2.1 t.2.2) (t :: L) s
          = (.aborted, (isOMMatmulTheSameAsNaiveImplFor f t.1 t.2.1 t.2.2 s).2) := by
        simp [runList, assertDriver, hr]
      rw [hrun]
      refine ⟨rfl, [], t, L, rfl, ?_⟩
      rw [hv, hr]; rfl
    | true =>
      have hrun : runList (fun t : Int × Int × Int => assertDriver f t.1 t.2.1 t.2.2) (t :: L) s
          = runList (fun t : Int × Int × Int => assertDriver f t.1 t.2.1 t.2.2) L
              (isOMMatmulTheSameAsNaiveImplFor f t.1 t.2.1 t.2.2 s).2 := by
        simp [runList, assertDriver, hr]
      rw [hrun]
      rw [hr] at hv
      rcases ih (isOMMatmulTheSameAsNaiveImplFor f t.1 t.2.1 t.2.2 s).2 with
        ⟨h1, h2⟩ | ⟨h1, pre, t1, post, h2, h3⟩
      · left
        refine ⟨h1, ?_⟩
        rw [h2, hv]
        simp
      · right
        refine ⟨h1, t :: pre, t1, post, by simp [h2], ?_⟩
        rw [h3, hv]
        simp

/-- Verdicts logged by the exhaustive campaign. -/
theorem exhaustiveCampaign_verdicts {σ : Type} (env : Env σ) (s : State σ) :
    ((exhaustiveCampaign env s).1 = .completed ∧
      (exhaustiveCampaign env s).2.verdicts = s.verdicts ++ lexTriples.map (fun t => (t, true))) ∨
    ((exhaustiveCampaign env s).1 = .aborted ∧
      ∃ pre t post, lexTriples = pre ++ t :: post ∧
        (exhaustiveCampaign env s).2.verdicts
          = s.verdicts ++ (pre.map (fun t => (t, true)) ++ [(t, false)])) := by
  unfold exhaustiveCampaign
  rw [exhaustiveLoops_eq_runList]
  exact sweep_verdicts env.facade lexTriples (print .exhaustiveHeader s)

/-- C2: when every configuration of the exhaustive campaign passes, the
triples it submits to the driver are, in order, all (I, J, K) with entries in
1..8 in ascending lexicographic order (I outermost, K innermost): 512
triples, each such triple exactly once, the first (1, 1, 1) and the last
(8, 8, 8); and the campaign runs to its end. -/
theorem exhaustive_all_pass_order {σ : Type} (env : Env σ) (s : State σ)
    (V : List ((Int × Int × Int) × Bool))
    (hV : (exhaustiveCampaign env s).2.verdicts = s.verdicts ++ V)
    (hpass : ∀ v ∈ V, v.2 = true) :
    V.map Prod.fst = lexTriples ∧ (exhaustiveCampaign env s).1 = .completed ∧
    lexTriples.length = 512 ∧
    (∀ I J K : Int, (I, J, K) ∈ lexTriples ↔
      (1 ≤ I ∧ I ≤ 8) ∧ (1 ≤ J ∧ J ≤ 8) ∧ (1 ≤ K ∧ K ≤ 8)) ∧
    lexTriples.Pairwise lexLt ∧ lexTriples.Nodup ∧
    lexTriples.head? = some (1, 1, 1) ∧ lexTriples.getLast? = some (8, 8, 8) := by
  refine ⟨?_, ?_, lexTriples_length, mem_lexTriples, lexTriples_pairwise, lexTriples_nodup,
    lexTriples_head, lexTriples_getLast⟩
  · rcases exhaustiveCampaign_verdicts env s with ⟨_, h2⟩ | ⟨_, pre, t, post, _, h3⟩
    · rw [hV] at h2
      have := List.append_cancel_left h2
      rw [this, List.map_map]
      exact List.map_id _
    · rw [hV] at h3
      have hVeq := List.append_cancel_left h3
      have := hpass (t, false) (by rw [hVeq]; simp)
      cases this
  · rcases exhaustiveCampaign_verdicts env s with ⟨h1, _⟩ | ⟨_, pre, t, post, _, h3⟩
    · exact h1
    · rw [hV] at h3
      have hVeq := List.append_cancel_left h3
      have := hpass (t, false) (by rw [hVeq]; simp)
      cases this

theorem sweep_completes {σ : Type} (f : Facade σ)
    (hf : ∀ I J K s, (isOMMatmulTheSameAsNaiveImplFor f I J K s).1 = true)
    (L : List (Int × Int × Int)) (s : State σ) :
    (runList (fun t : Int × Int × Int => assertDriver f t.1 t.2.1 t.2.2) L s).1 = .completed := by
  induction L generalizing s with
  | nil => rfl
  | cons t L ih =>
    have hrun : runList (fun t : Int × Int × Int => assertDriver f t.1 t.2.1 t.2.2) (t :: L) s
        = runList (fun t : Int × Int × Int => assertDriver f t.1 t.2.1 t.2.2) L
            (isOMMatmulTheSameAsNaiveImplFor f t.1 t.2.1 t.2.2 s).2 := by
      simp [runList, assertDriver, hf]
    rw [hrun]
    exact ih _

theorem passFacade_driver (I J K : Int) (s : State Unit) :
    (isOMMatmulTheSameAsNaiveImplFor passFacade I J K s).1 = true := rfl

theorem passFacade_exhaustive (s : State Unit) :
    (exhaustiveCampaign (sampleEnv passFacade) s).2.verdicts
      = s.verdicts ++ lexTriples.map (fun t => (t, true)) := by
  rcases exhaustiveCampaign_verdicts (sampleEnv passFacade) s with ⟨_, h2⟩ | ⟨h1, _⟩
  · exact h2
  · have hc : (exhaustiveCampaign (sampleEnv passFacade) s).1 = .completed := by
      unfold exhaustiveCampaign
      rw [exhaustiveLoops_eq_runList]
      exact sweep_completes passFacade passFacade_driver _ _
    rw [hc] at h1
    cases h1

theorem exhaustive_all_pass_order_witness :
    (exhaustiveCampaign (sampleEnv passFacade)
        (State.initial { artifact := false, ext := () })).2.verdicts
      = (State.initial { artifact := false, ext := () } : State Unit).verdicts
          ++ lexTriples.map (fun t => (t, true)) ∧
    (∀ v ∈ lexTriples.map (fun t => (t, true)), v.2 = true) ∧
    (lexTriples.map (fun t => (t, true))).map Prod.fst = lexTriples ∧
    (exhaustiveCampaign (sampleEnv passFacade)
        (State.initial { artifact := false, ext := () })).1 = .completed :=
  ⟨passFacade_exhaustive _, by simp,
   (exhaustive_all_pass_order (sampleEnv passFacade) (State.initial { artifact := false, ext := () })
      (lexTriples.map (fun t => (t, true))) (passFacade_exhaustive _) (by simp)).1,
   (exhaustive_all_pass_order (sampleEnv passFacade) (State.initial { artifact := false, ext := () })
      (lexTriples.map (fun t => (t, true))) (passFacade_exhaustive _) (by simp)).2.1⟩

/-! ## Theorems: `main` -/

/-- What `main` does once both random campaigns have succeeded. -/
theorem main_of_campaigns_pass {σ : Type} (env : Env σ) (s0 s1 : State σ)
    (hsetup : setup env s0 = some s1)
    (hmv : (matrixVectorCampaign env s1).1 = true)
    (hmm : (matrixMatrixCampaign env (matrixVectorCampaign env s1).2).1 = true) :
    main env s0 =
      match exhaustiveCampaign env (matrixMatrixCampaign env (matrixVectorCampaign env s1).2).2 with
      | (.aborted, s2) => (.aborted, s2)
      | (.completed, s2) => (.returned 0, removerDestructor s2) := by
  simp only [main, hsetup, campaigns, hmv, hmm]
  cases exhaustiveCampaign env (matrixMatrixCampaign env (matrixVectorCampaign env s1).2).2 with
  | mk fl s2 => cases fl <;> rfl

theorem main_of_matrixVector_fail {σ : Type} (env : Env σ) (s0 s1 : State σ)
    (hsetup : setup env s0 = some s1)
    (hmv : (matrixVectorCampaign env s1).1 = false) :
    main env s0 = (.returned 1, removerDestructor (matrixVectorCampaign env s1).2) := by
  simp [main, hsetup, campaigns, hmv]

theorem main_of_matrixMatrix_fail {σ : Type} (env : Env σ) (s0 s1 : State σ)
    (hsetup : setup env s0 = some s1)
    (hmv : (matrixVectorCampaign env s1).1 = true)
    (hmm : (matrixMatrixCampaign env (matrixVectorCampaign env s1).2).1 = false) :
    main env s0 = (.returned 1,
      removerDestructor (matrixMatrixCampaign env (matrixVectorCampaign env s1).2).2) := by
  simp [main, hsetup, campaigns, hmv, hmm]

theorem main_of_setup_none {σ : Type} (env : Env σ) (s0 : State σ)
    (hsetup : setup env s0 = none) : main env s0 = (.exited, seedAndLevel env s0) := by
  simp [main, hsetup]

/-- C5: `main` returns 0 only if the Matrix-Vector campaign succeeded, the
Matrix-Matrix campaign succeeded and every exhaustive configuration passed.
If the Matrix-Vector campaign fails, `main` returns 1 and the final state is
the one that campaign left (with the artifact removed): neither the
Matrix-Matrix nor the exhaustive campaign was started.  If the Matrix-Matrix
campaign fails, `main` returns 1 and the final state is the one that campaign
left: the exhaustive campaign was not started.  Here `s1` is the state in
which the campaigns start, after the command line was parsed. -/
theorem main_exit_code {σ : Type} (env : Env σ) (s0 : State σ) :
    ((main env s0).1 = .returned 0 →
      ∃ s1, setup env s0 = some s1 ∧
      (matrixVectorCampaign env s1).1 = true ∧
      (matrixMatrixCampaign env (matrixVectorCampaign env s1).2).1 = true ∧
      (exhaustiveCampaign env (matrixMatrixCampaign env (matrixVectorCampaign env s1).2).2).1
        = .completed ∧
      (exhaustiveCampaign env
          (matrixMatrixCampaign env (matrixVectorCampaign env s1).2).2).2.verdicts
        = (matrixMatrixCampaign env (matrixVectorCampaign env s1).2).2.verdicts
            ++ lexTriples.map (fun t => (t, true))) ∧
    (∀ s1, setup env s0 = some s1 →
      ((matrixVectorCampaign env s1).1 = false →
        main env s0 = (.returned 1, removerDestructor (matrixVectorCampaign env s1).2)) ∧
      ((matrixVectorCampaign env s1).1 = true →
        (matrixMatrixCampaign env (matrixVectorCampaign env s1).2).1 = false →
        main env s0 = (.returned 1,
          removerDestructor (matrixMatrixCampaign env (matrixVectorCampaign env s1).2).2))) := by
  refine ⟨?_, fun s1 hsetup => ⟨main_of_matrixVector_fail env s0 s1 hsetup,
    main_of_matrixMatrix_fail env s0 s1 hsetup⟩⟩
  intro h0
  cases hsetup : setup env s0 with
  | none =>
    rw [main_of_setup_none env s0 hsetup] at h0
    simp at h0
  | some s1 =>
    refine ⟨s1, rfl, ?_⟩
    cases hmv : (matrixVectorCampaign env s1).1 with
    | false =>
      rw [main_of_matrixVector_fail env s0 s1 hsetup hmv] at h0
      simp at h0
    | true =>
      cases hmm : (matrixMatrixCampaign env (matrixVectorCampaign env s1).2).1 with
      | false =>
        rw [main_of_matrixMatrix_fail env s0 s1 hsetup hmv hmm] at h0
        simp at h0
      | true =>
        rw [main_of_campaigns_pass env s0 s1 hsetup hmv hmm] at h0
        rcases exhaustiveCampaign_verdicts env
            (matrixMatrixCampaign env (matrixVectorCampaign env s1).2).2 with ⟨h1, h2⟩ | ⟨h1, _⟩
        · exact ⟨rfl, rfl, h1, h2⟩
        · exfalso
          revert h0 h1
          cases exhaustiveCampaign env
              (matrixMatrixCampaign env (matrixVectorCampaign env s1).2).2 with
          | mk fl s2 =>
            intro h0 h1
            simp only at h1
            subst h1
            simp at h0

theorem main_exit_code_witness :
    setup (sampleEnv (failFacade (4, 1, 4))) sampleStart = some sampleAfterSetup ∧
    (matrixVectorCampaign (sampleEnv (failFacade (4, 1, 4))) sampleAfterSetup).1 = false ∧
    main (sampleEnv (failFacade (4, 1, 4))) sampleStart
      = (.returned 1, removerDestructor
          (matrixVectorCampaign (sampleEnv (failFacade (4, 1, 4))) sampleAfterSetup).2) ∧
    (main (sampleEnv (failFacade (4, 1, 4))) sampleStart).2.out
      = [.targetOptions "", .matrixVectorHeader, .attempt 1 4 1 4] ∧
    setup (sampleEnv (failFacade (2, 3, 4))) sampleStart = some sampleAfterSetup ∧
    (matrixVectorCampaign (sampleEnv (failFacade (2, 3, 4))) sampleAfterSetup).1 = true ∧
    main (sampleEnv (failFacade (2, 3, 4))) sampleStart
      = (.returned 1, removerDestructor
          (matrixMatrixCampaign (sampleEnv (failFacade (2, 3, 4)))
            (matrixVectorCampaign (sampleEnv (failFacade (2, 3, 4))) sampleAfterSetup).2).2) ∧
    (main (sampleEnv (failFacade (2, 3, 4))) sampleStart).2.out
      = [.targetOptions "", .matrixVectorHeader, .attempt 1 4 1 4, .matrixMatrixHeader,
         .attempt 2 2 3 4] :=
  ⟨rfl, rfl,
   ((main_exit_code (sampleEnv (failFacade (4, 1, 4))) sampleStart).2 sampleAfterSetup rfl).1 rfl,
   rfl, rfl, rfl,
   ((main_exit_code (sampleEnv (failFacade (2, 3, 4))) sampleStart).2 sampleAfterSetup rfl).2
      rfl rfl,
   rfl⟩

/-- C6, as stated, fails on the abort path: with a model builder whose
verification fails for the shape (1, 2, 1), the exhaustive campaign aborts
the process, the destructor of `remover` does not run, and the artifact file
written by `compileAndLoad` still exists. -/
theorem main_abort_leaves_artifact :
    (main (sampleEnv (failFacade (1, 2, 1))) sampleStart).1 = .aborted ∧
    (main (sampleEnv (failFacade (1, 2, 1))) sampleStart).2.world.artifact = true := by
  rw [main_of_campaigns_pass (sampleEnv (failFacade (1, 2, 1))) sampleStart sampleAfterSetup
    rfl rfl rfl]
  unfold exhaustiveCampaign
  rw [exhaustiveLoops_eq_runList]
  exact ⟨rfl, rfl⟩

/-- C6 (amended): whenever `main` returns, with code 0 or with code 1 after a
failed random campaign, the artifact file at the shared base path does not
exist afterwards. -/
theorem main_return_removes_artifact {σ : Type} (env : Env σ) (s0 : State σ) (code : Int)
    (h : (main env s0).1 = .returned code) :
    (main env s0).2.world.artifact = false := by
  unfold main at h ⊢
  cases hs : setup env s0 with
  | none => simp [hs] at h
  | some s1 =>
    simp only [hs] at h ⊢
    cases hc : campaigns env s1 with
    | mk ex s2 =>
      cases ex with
      | returned c => rfl
      | aborted => simp [hc] at h
      | exited => simp [hc] at h

theorem main_returns_zero_of_completed {σ : Type} (env : Env σ) (s0 s1 : State σ)
    (hsetup : setup env s0 = some s1)
    (hmv : (matrixVectorCampaign env s1).1 = true)
    (hmm : (matrixMatrixCampaign env (matrixVectorCampaign env s1).2).1 = true)
    (hc : (exhaustiveCampaign env
      (matrixMatrixCampaign env (matrixVectorCampaign env s1).2).2).1 = .completed) :
    (main env s0).1 = .returned 0 := by
  rw [main_of_campaigns_pass env s0 s1 hsetup hmv hmm]
  revert hc
  cases exhaustiveCampaign env (matrixMatrixCampaign env (matrixVectorCampaign env s1).2).2 with
  | mk fl s2 =>
    intro hc
    simp only at hc
    subst hc
    rfl

theorem passFacade_completes (s : State Unit) :
    (exhaustiveCampaign (sampleEnv passFacade) s).1 = .completed := by
  unfold exhaustiveCampaign
  rw [exhaustiveLoops_eq_runList]
  exact sweep_completes passFacade passFacade_driver _ _

theorem passFacade_main_returns :
    (main (sampleEnv passFacade) (State.initial { artifact := true, ext := () })).1
      = .returned 0 :=
  main_returns_zero_of_completed (sampleEnv passFacade)
    (State.initial { artifact := true, ext := () })
    (afterSetup { artifact := true, ext := () }) rfl rfl rfl (passFacade_completes _)

theorem main_return_removes_artifact_witness :
    (main (sampleEnv passFacade) (State.initial { artifact := true, ext := () })).1
      = .returned 0 ∧
    (main (sampleEnv passFacade) (State.initial { artifact := true, ext := () })).2.world.artifact
      = false :=
  ⟨passFacade_main_returns,
   main_return_removes_artifact _ _ 0 passFacade_main_returns⟩

/-- C7: in the exhaustive campaign, if the driver returns false for some
triple, the process terminates at that triple: the triples attempted are the
triples before it in the ascending enumeration, all passing, and then the
failing triple itself; no later triple is attempted, since the final state of
`main` is the state right after the failing driver call; and `main` is
aborted, so it does not return 0. -/
theorem exhaustive_stops_at_first_failure {σ : Type} (env : Env σ) (s0 s1 : State σ)
    (hsetup : setup env s0 = some s1)
    (hmv : (matrixVectorCampaign env s1).1 = true)
    (hmm : (matrixMatrixCampaign env (matrixVectorCampaign env s1).2).1 = true)
    (V : List ((Int × Int × Int) × Bool))
    (hV : (exhaustiveCampaign env
            (matrixMatrixCampaign env (matrixVectorCampaign env s1).2).2).2.verdicts
          = (matrixMatrixCampaign env (matrixVectorCampaign env s1).2).2.verdicts ++ V)
    (hfail : ∃ v ∈ V, v.2 = false) :
    (∃ pre t post, lexTriples = pre ++ t :: post ∧
      V = pre.map (fun t => (t, true)) ++ [(t, false)]) ∧
    (exhaustiveCampaign env (matrixMatrixCampaign env (matrixVectorCampaign env s1).2).2).1
      = .aborted ∧
    main env s0 = (.aborted,
      (exhaustiveCampaign env (matrixMatrixCampaign env (matrixVectorCampaign env s1).2).2).2) ∧
    (main env s0).1 ≠ .returned 0 := by
  have hmain := main_of_campaigns_pass env s0 s1 hsetup hmv hmm
  rcases exhaustiveCampaign_verdicts env
      (matrixMatrixCampaign env (matrixVectorCampaign env s1).2).2 with ⟨_, h2⟩ | ⟨h1, pre, t, post, h2, h3⟩
  · exfalso
    rw [hV] at h2
    have hVeq := List.append_cancel_left h2
    obtain ⟨v, hv, hvf⟩ := hfail
    rw [hVeq] at hv
    obtain ⟨t, _, rfl⟩ := List.mem_map.1 hv
    cases hvf
  · rw [hV] at h3
    have hVeq := List.append_cancel_left h3
    have hm : main env s0 = (.aborted,
        (exhaustiveCampaign env
          (matrixMatrixCampaign env (matrixVectorCampaign env s1).2).2).2) := by
      rw [hmain]
      revert h1
      cases exhaustiveCampaign env (matrixMatrixCampaign env (matrixVectorCampaign env s1).2).2 with
      | mk fl s2 =>
        intro h1
        simp only at h1
        subst h1
        rfl
    refine ⟨⟨pre, t, post, h2, hVeq⟩, h1, hm, ?_⟩
    rw [hm]
    simp

theorem failFacade_verdicts :
    (exhaustiveCampaign (sampleEnv (failFacade (1, 2, 1)))
      (matrixMatrixCampaign (sampleEnv (failFacade (1, 2, 1)))
        (matrixVectorCampaign (sampleEnv (failFacade (1, 2, 1))) sampleAfterSetup).2).2).2.verdicts
    = (matrixMatrixCampaign (sampleEnv (failFacade (1, 2, 1)))
        (matrixVectorCampaign (sampleEnv (failFacade (1, 2, 1))) sampleAfterSetup).2).2.verdicts
      ++ sampleVerdicts := by
  unfold exhaustiveCampaign
  rw [exhaustiveLoops_eq_runList]
  rfl

theorem exhaustive_stops_at_first_failure_witness :
    setup (sampleEnv (failFacade (1, 2, 1))) sampleStart = some sampleAfterSetup ∧
    (matrixVectorCampaign (sampleEnv (failFacade (1, 2, 1))) sampleAfterSetup).1 = true ∧
    (matrixMatrixCampaign (sampleEnv (failFacade (1, 2, 1)))
      (matrixVectorCampaign (sampleEnv (failFacade (1, 2, 1))) sampleAfterSetup).2).1 = true ∧
    (∃ v ∈ sampleVerdicts, v.2 = false) ∧
    (∃ pre t post, lexTriples = pre ++ t :: post ∧
      sampleVerdicts = pre.map (fun t => (t, true)) ++ [(t, false)]) ∧
    (main (sampleEnv (failFacade (1, 2, 1))) sampleStart).1 ≠ .returned 0 :=
  ⟨rfl, rfl, rfl, ⟨((1, 2, 1), false), by decide, rfl⟩,
   (exhaustive_stops_at_first_failure (sampleEnv (failFacade (1, 2, 1))) sampleStart
      sampleAfterSetup rfl rfl rfl sampleVerdicts failFacade_verdicts
      ⟨((1, 2, 1), false), by decide, rfl⟩).1,
   (exhaustive_stops_at_first_failure (sampleEnv (failFacade (1, 2, 1))) sampleStart
      sampleAfterSetup rfl rfl rfl sampleVerdicts failFacade_verdicts
      ⟨((1, 2, 1), false), by decide, rfl⟩).2.2.2⟩

/-! ## Theorems: the random campaigns -/

/-- Every driver call made by `rc::check` is for the triple of an input of
the plan. -/
theorem rcCheck_verdicts {α σ : Type} (property : α → State σ → Bool × State σ)
    (p : α → Prop) (g : α → Int × Int × Int)
    (hprop : ∀ x s, (property x s).2.verdicts = s.verdicts ++ [(g x, (property x s).1)])
    (plan : CheckPlan α) (hall : plan.All p) (s : State σ) :
    ∃ V, (rcCheck property plan s).2.verdicts = s.verdicts ++ V ∧
      ∀ v ∈ V, ∃ x, p x ∧ v.1 = g x := by
  induction plan generalizing s with
  | done verdict => exact ⟨[], by simp [rcCheck], by simp⟩
  | test x onPass onFail ihp ihf =>
    obtain ⟨hx, hp, hf⟩ := hall
    cases hr : (property x s).1 with
    | true =>
      obtain ⟨V, hV, hmem⟩ := ihp hp (property x s).2
      refine ⟨(g x, true) :: V, ?_, ?_⟩
      · simp only [rcCheck, hr, if_true]
        rw [hV, hprop, hr]
        simp
      · intro v hv
        rcases List.mem_cons.1 hv with rfl | hv
        · exact ⟨x, hx, rfl⟩
        · exact hmem v hv
    | false =>
      obtain ⟨V, hV, hmem⟩ := ihf hf (property x s).2
      refine ⟨(g x, false) :: V, ?_, ?_⟩
      · simp only [rcCheck, hr]
        rw [if_neg (by simp), hV, hprop, hr]
        simp
      · intro v hv
        rcases List.mem_cons.1 hv with rfl | hv
        · exact ⟨x, hx, rfl⟩
        · exact hmem v hv

/-- Every triple the Matrix-Vector campaign submits is (I, 1, K) for a drawn
pair (I, K). -/
theorem matrixVectorCanSubmit_drawn (t : Int × Int × Int) (h : matrixVectorCanSubmit t) :
    ∃ x : Int × Int, matrixVectorDraw x ∧ t = (x.1, 1, x.2) := by
  obtain ⟨σ, env, s, V, b, hall, hV, hmem⟩ := h
  obtain ⟨V1, hV1, hmem1⟩ := rcCheck_verdicts (matrixVectorProperty env.facade) matrixVectorDraw
    (fun x => (x.1, 1, x.2))
    (fun x s => (driver_frame env.facade x.1 1 x.2 s).2.2.1)
    env.matrixVectorPlan hall (print .matrixVectorHeader s)
  have hVV : V = V1 := by
    unfold matrixVectorCampaign at hV
    rw [hV1] at hV
    exact (List.append_cancel_left hV).symm
  subst hVV
  exact hmem1 (t, b) hmem

/-- Every triple the Matrix-Matrix campaign submits is a drawn triple. -/
theorem matrixMatrixCanSubmit_drawn (t : Int × Int × Int) (h : matrixMatrixCanSubmit t) :
    matrixMatrixDraw t := by
  obtain ⟨σ, env, s, V, b, hall, hV, hmem⟩ := h
  obtain ⟨V1, hV1, hmem1⟩ := rcCheck_verdicts (matrixMatrixProperty env.facade) matrixMatrixDraw
    (fun x => x)
    (fun x s => (driver_frame env.facade x.1 x.2.1 x.2.2 s).2.2.1)
    env.matrixMatrixPlan hall (print .matrixMatrixHeader s)
  have hVV : V = V1 := by
    unfold matrixMatrixCampaign at hV
    rw [hV1] at hV
    exact (List.append_cancel_left hV).symm
  subst hVV
  obtain ⟨x, hx, hxt⟩ := hmem1 (t, b) hmem
  simp only at hxt
  rw [hxt]
  exact hx

theorem matrixVectorCanSubmit_of_drawn (x : Int × Int) (hx : matrixVectorDraw x) :
    matrixVectorCanSubmit (x.1, 1, x.2) :=
  ⟨Unit, oneCaseEnv x (1, 1, 1), State.initial { artifact := false, ext := () },
    [((x.1, 1, x.2), true)], true, ⟨hx, trivial, trivial⟩, rfl, by simp⟩

theorem matrixMatrixCanSubmit_of_drawn (x : Int × Int × Int) (hx : matrixMatrixDraw x) :
    matrixMatrixCanSubmit x :=
  ⟨Unit, oneCaseEnv (4, 4) x, State.initial { artifact := false, ext := () },
    [(x, true)], true, ⟨hx, trivial, trivial⟩, rfl, by simp⟩

/-- C3, as stated, fails: (50, 1, 4) and (4, 1, 14) belong to the claimed set
but the Matrix-Vector campaign cannot submit them, since `inRange(4, 50)`
never draws 50 and `inRange(4, 14)` never draws 14. -/
theorem matrixVector_upper_bounds_not_drawn :
    ¬ matrixVectorCanSubmit (50, 1, 4) ∧ ¬ matrixVectorCanSubmit (4, 1, 14) := by
  constructor
  · intro h
    obtain ⟨x, ⟨⟨_, h1⟩, _⟩, hx⟩ := matrixVectorCanSubmit_drawn _ h
    simp only [Prod.mk.injEq] at hx
    omega
  · intro h
    obtain ⟨x, ⟨_, ⟨_, h1⟩⟩, hx⟩ := matrixVectorCanSubmit_drawn _ h
    simp only [Prod.mk.injEq] at hx
    omega

/-- C3 (amended): the triples the Matrix-Vector campaign can submit to the
driver are exactly the (I, 1, K) with 4 ≤ I ≤ 49 and 4 ≤ K ≤ 13: J is always
1, `inRange(4, 50)` draws I from 4 up to and including 49, `inRange(4, 14)`
draws K from 4 up to and including 13, and every such value can be drawn. -/
theorem matrixVector_submitted_set (I J K : Int) :
    matrixVectorCanSubmit (I, J, K) ↔ (4 ≤ I ∧ I ≤ 49) ∧ J = 1 ∧ (4 ≤ K ∧ K ≤ 13) := by
  constructor
  · intro h
    obtain ⟨x, ⟨⟨h1, h2⟩, ⟨h3, h4⟩⟩, hx⟩ := matrixVectorCanSubmit_drawn _ h
    simp only [Prod.mk.injEq] at hx
    obtain ⟨rfl, rfl, rfl⟩ := hx
    exact ⟨⟨h1, by omega⟩, rfl, ⟨h3, by omega⟩⟩
  · rintro ⟨⟨h1, h2⟩, rfl, ⟨h3, h4⟩⟩
    exact matrixVectorCanSubmit_of_drawn (I, K) ⟨⟨h1, by omega⟩, ⟨h3, by omega⟩⟩

/-- C4, as stated, fails: (50, 1, 1), (1, 50, 1) and (1, 1, 50) belong to the
claimed set but the Matrix-Matrix campaign cannot submit them, since
`inRange(1, 50)` never draws 50. -/
theorem matrixMatrix_upper_bound_not_drawn :
    ¬ matrixMatrixCanSubmit (50, 1, 1) ∧ ¬ matrixMatrixCanSubmit (1, 50, 1) ∧
    ¬ matrixMatrixCanSubmit (1, 1, 50) := by
  refine ⟨fun h => ?_, fun h => ?_, fun h => ?_⟩
  · exact absurd (matrixMatrixCanSubmit_drawn _ h) (by decide)
  · exact absurd (matrixMatrixCanSubmit_drawn _ h) (by decide)
  · exact absurd (matrixMatrixCanSubmit_drawn _ h) (by decide)

/-- C4 (amended): the triples the Matrix-Matrix campaign can submit to the
driver are exactly the (I, J, K) with 1 ≤ I, J, K ≤ 49: each dimension is
drawn independently by `inRange(1, 50)`, from 1 up to and including 49, and
every such value can be drawn for each dimension. -/
theorem matrixMatrix_submitted_set (I J K : Int) :
    matrixMatrixCanSubmit (I, J, K) ↔ (1 ≤ I ∧ I ≤ 49) ∧ (1 ≤ J ∧ J ≤ 49) ∧ (1 ≤ K ∧ K ≤ 49) := by
  constructor
  · intro h
    obtain ⟨⟨h1, h2⟩, ⟨h3, h4⟩, ⟨h5, h6⟩⟩ := matrixMatrixCanSubmit_drawn _ h
    simp only at h1 h2 h3 h4 h5 h6
    exact ⟨⟨h1, by omega⟩, ⟨h3, by omega⟩, ⟨h5, by omega⟩⟩
  · rintro ⟨⟨h1, h2⟩, ⟨h3, h4⟩, ⟨h5, h6⟩⟩
    exact matrixMatrixCanSubmit_of_drawn (I, J, K)
      ⟨⟨h1, by simp only; omega⟩, ⟨h3, by simp only; omega⟩, ⟨h5, by simp only; omega⟩⟩

end OnnxMlir
